import Mathlib

/-!
Verification development for the create-rust-app repository.

The repository ships a CLI (src/create-rust-app_cli/src/main.rs) whose
Configure subcommand drives a type/route synchronization engine
(the qsync module, called at main.rs:502-507), and an auth library
(src/create-rust-app/src/auth/user_session.rs).

The qsync engine itself (scanner, parser, resolver, route builder,
emitter) is not among the provided source files; its pipeline is
modelled here from the design document's component descriptions
(spec sections 2-7).  The CLI argument plumbing and the UserSession
query builder are embedded directly from the source files.
-/

namespace CreateRustApp

namespace QSync

/-! ### Error taxonomy (spec section 7) -/

/-- Modelled from the spec: the error taxonomy of section 7 — NotFound,
EmptyInput (scanning); MalformedDeclaration (parsing); DuplicateType,
UnknownType (type resolution); PathParamMismatch, DuplicateRoute (route
resolution); UnsupportedType (emission).  The qsync implementation is not
among the provided sources. -/
inductive Error where
  | notFound (path : String)
  | emptyInput
  | malformedDeclaration (file : String)
  | duplicateType (name : String)
  | unknownType (name : String) (referencingType : String) (field : String)
  | pathParamMismatch (method : String) (path : String)
  | duplicateRoute (method : String) (path : String)
  | unsupportedType (kind : String)
deriving DecidableEq

/-! ### Data model (spec section 3) -/

/-- Modelled from the spec: canonical TypeRef — one of Primitive(kind),
NamedType(name), List(TypeRef), Optional(TypeRef), Map(TypeRef,TypeRef). -/
inductive TypeRef where
  | primitive (kind : String)
  | named (name : String)
  | list (elem : TypeRef)
  | optional (elem : TypeRef)
  | map (key : TypeRef) (value : TypeRef)
deriving DecidableEq

/-- Modelled from the spec: a TypeDecl field (name, TypeRef, optional?). -/
structure Field where
  name : String
  ty : TypeRef
  optional : Bool
deriving DecidableEq

/-- Modelled from the spec: TypeDecl kind, product or sum. -/
inductive TypeKind where
  | product
  | sum
deriving DecidableEq

/-- Modelled from the spec: TypeDecl = name, kind, ordered fields. -/
structure TypeDecl where
  name : String
  kind : TypeKind
  fields : List Field
deriving DecidableEq

/-- Modelled from the spec: a declared (path or query) parameter. -/
structure Param where
  name : String
  ty : TypeRef
deriving DecidableEq

/-- Modelled from the spec: a declared query parameter with optional flag. -/
structure QueryParam where
  name : String
  ty : TypeRef
  optional : Bool
deriving DecidableEq

/-- Modelled from the spec: RouteDecl = method, path template, ordered path
params, ordered query params, optional body, response. -/
structure RouteDecl where
  method : String
  path : String
  pathParams : List Param
  queryParams : List QueryParam
  body : Option TypeRef
  response : TypeRef
deriving DecidableEq

/-- Modelled from the spec: SourceUnit = path plus raw text. -/
structure SourceUnit where
  path : String
  text : String
deriving DecidableEq

/-! ### Generic Except-valued list combinators

Explicitly recursive versions of mapM / forM over the Except monad,
kept first-order so that every pipeline stage unfolds by plain `match`
reasoning. -/

/-- Map a fallible function over a list, failing on the first error. -/
def mapE {α β : Type} (f : α → Except Error β) : List α → Except Error (List β)
  | [] => .ok []
  | a :: l =>
    match f a with
    | .error e => .error e
    | .ok b =>
      match mapE f l with
      | .error e => .error e
      | .ok bs => .ok (b :: bs)

/-- Run a fallible check over a list, failing on the first error. -/
def forE {α : Type} (f : α → Except Error Unit) : List α → Except Error Unit
  | [] => .ok ()
  | a :: l =>
    match f a with
    | .error e => .error e
    | .ok _ => forE f l

/-! ### Character-list string utilities

The model works on `List Char` (`String.data`) so that every operation is
structurally recursive and kernel-evaluable. -/

/-- Left brace character, used by the path-template placeholder syntax. -/
def lbrace : Char := Char.ofNat 123

/-- Right brace character, used by the path-template placeholder syntax. -/
def rbrace : Char := Char.ofNat 125

/-- Split a character list on a separator character. -/
def splitOnC (sep : Char) : List Char → List (List Char)
  | [] => [[]]
  | c :: cs =>
    match splitOnC sep cs with
    | [] => if c = sep then [[], []] else [[c]]
    | h :: t => if c = sep then [] :: h :: t else (c :: h) :: t

/-- Drop leading and trailing spaces. -/
def trimC (l : List Char) : List Char :=
  ((l.dropWhile (fun c => c = ' ')).reverse.dropWhile (fun c => c = ' ')).reverse

/-- Whitespace-separated words of a character list. -/
def wordsC (l : List Char) : List String :=
  ((splitOnC ' ' l).filter (fun w => ¬ w.isEmpty)).map String.mk

/-- Boolean prefix test on character lists. -/
def prefixC : List Char → List Char → Bool
  | [], _ => true
  | _ :: _, [] => false
  | a :: as, b :: bs => a = b && prefixC as bs

/-- Boolean suffix test on strings, via reversed prefix test. -/
def strSuffixB (s t : String) : Bool := prefixC s.data.reverse t.data.reverse

/-- Codepoint key of a string, for the deterministic name order. -/
def strKey (s : String) : List Nat := s.data.map Char.toNat

/-- Lexicographic order on codepoint lists. -/
def natLexLeB : List Nat → List Nat → Bool
  | [], _ => true
  | _ :: _, [] => false
  | a :: as, b :: bs => if a = b then natLexLeB as bs else decide (a < b)

/-- Deterministic total order on strings (lexicographic by codepoint). -/
def strLeB (a b : String) : Bool := natLexLeB (strKey a) (strKey b)

/-- Concatenate strings with a separator. -/
def joinSep (sep : String) : List String → String
  | [] => ""
  | [s] => s
  | s :: rest => s ++ sep ++ joinSep sep rest

/-! ### Source Scanner (spec section 4.1)

Modelled from the spec: the filesystem visible to one invocation is a
finite list of (path, contents) files.  A path names a directory exactly
when some file lies strictly below it. -/

/-- Modelled from the spec: the readable filesystem, a finite map from
path to file contents. -/
structure FileSystem where
  files : List (String × String)
deriving DecidableEq

/-- Files found at an input path: the file itself, or everything below it
when the path is a directory. -/
def filesUnder (fs : FileSystem) (p : String) : List (String × String) :=
  fs.files.filter (fun f => f.1 = p || prefixC (p ++ "/").data f.1.data)

/-- Extension filter for source files (spec 4.1: filtered by file
extension; the concrete extension is the backend language's). -/
def isSourceFile (p : String) : Bool := strSuffixB ".rs" p

/-- Directory depth of a path, for the (depth, lexical path) scan order. -/
def pathDepth (p : String) : Nat := p.data.count '/'

/-- Scan order on files: directory depth, then lexical path (spec 4.1). -/
def scanLe (a b : String × String) : Prop :=
  (if pathDepth a.1 = pathDepth b.1 then strLeB a.1 b.1
   else decide (pathDepth a.1 < pathDepth b.1)) = true

instance : DecidableRel scanLe := fun _ _ => instDecidableEqBool _ true

/-- Modelled from the spec (4.1): expand each input path (NotFound when it
does not exist), filter to source files, order by (depth, lexical path),
and fail with EmptyInput when the expansion is empty. -/
def scan (fs : FileSystem) (inputs : List String) : Except Error (List SourceUnit) :=
  match mapE
      (fun p =>
        if (filesUnder fs p).isEmpty then .error (Error.notFound p)
        else .ok (filesUnder fs p)) inputs with
  | .error e => .error e
  | .ok groups =>
    let sources := groups.flatten.filter (fun f => isSourceFile f.1)
    let sorted := List.insertionSort scanLe sources
    if sorted.isEmpty then .error Error.emptyInput
    else .ok (sorted.map (fun f => SourceUnit.mk f.1 f.2))

/-! ### Declaration Parser (spec section 4.2)

Modelled from the spec: a tolerant, line-based parse pass that commits to
a declaration only when its marker is seen and skips every other line.
The concrete surface syntax is an implementation choice (spec section 9);
this model fixes one:

  serializable KIND NAME ; field : REF ; field? : REF ...
  route METHOD /path/\x7bname\x7d ; PATHPARAMS ; QUERYPARAMS ; BODY ; REF

where REF is a prefix expression over the tokens list / opt / map /
primitive names / type names, PATHPARAMS and QUERYPARAMS are either `-`
or comma-separated `name : REF` items, and BODY is `-` or a REF. -/

/-- Fixed primitive-name table of the source language surface syntax. -/
def primNames : List String := ["string", "number", "bool"]

/-- Prefix-token parser for REF expressions, fuelled by the token count;
returns the parsed reference and the unconsumed tokens. -/
def parseRef : Nat → List String → Option (TypeRef × List String)
  | 0, _ => none
  | _ + 1, [] => none
  | fuel + 1, tok :: rest =>
    if tok = "list" then
      match parseRef fuel rest with
      | none => none
      | some (t, rem) => some (TypeRef.list t, rem)
    else if tok = "opt" then
      match parseRef fuel rest with
      | none => none
      | some (t, rem) => some (TypeRef.optional t, rem)
    else if tok = "map" then
      match parseRef fuel rest with
      | none => none
      | some (k, rem1) =>
        match parseRef fuel rem1 with
        | none => none
        | some (v, rem2) => some (TypeRef.map k v, rem2)
    else if primNames.contains tok then some (TypeRef.primitive tok, rest)
    else some (TypeRef.named tok, rest)

/-- Parse a whole REF segment; every token must be consumed. -/
def parseRefAll (seg : List Char) : Option TypeRef :=
  let toks := wordsC seg
  match parseRef toks.length toks with
  | some (t, []) => some t
  | _ => none

/-- Split a `name : REF` item into the name characters and the reference;
fails when the item does not have exactly one colon or the REF is bad. -/
def parseTypedItem (seg : List Char) : Option (String × Bool × TypeRef) :=
  match splitOnC ':' seg with
  | [nameSeg, refSeg] =>
    let nm := trimC nameSeg
    match parseRefAll refSeg with
    | none => none
    | some t =>
      if nm.getLast? = some '?' then some (String.mk nm.dropLast, true, t)
      else some (String.mk nm, false, t)
  | _ => none

/-- Parse one field segment of a serializable-type line. -/
def parseField (seg : List Char) : Option Field :=
  match parseTypedItem seg with
  | none => none
  | some (nm, opt, t) => some (Field.mk nm t opt)

/-- Parse a `-` or comma-separated `name : REF` parameter segment. -/
def parseParams (seg : List Char) : Option (List (String × Bool × TypeRef)) :=
  if trimC seg = ['-'] then some []
  else (splitOnC ',' seg).mapM parseTypedItem

/-- Parse a serializable-type line already split at semicolons: header
words plus one segment per field (spec 4.2: MalformedDeclaration exactly
when the marker is present but the body is not of the expected shape). -/
def parseTypeLine (file : String) (headerWords : List String)
    (fieldSegs : List (List Char)) : Except Error TypeDecl :=
  match headerWords with
  | [_, kindTok, nameTok] =>
    match
      (if kindTok = "product" then some TypeKind.product
       else if kindTok = "sum" then some TypeKind.sum else none) with
    | none => .error (Error.malformedDeclaration file)
    | some kind =>
      match fieldSegs.mapM parseField with
      | none => .error (Error.malformedDeclaration file)
      | some fs => .ok (TypeDecl.mk nameTok kind fs)
  | _ => .error (Error.malformedDeclaration file)

/-- Parse a route line already split at semicolons: header words plus the
path-params, query-params, body and response segments. -/
def parseRouteLine (file : String) (headerWords : List String)
    (segs : List (List Char)) : Except Error RouteDecl :=
  match headerWords, segs with
  | [_, methodTok, pathTok], [ppSeg, qpSeg, bodySeg, respSeg] =>
    match parseParams ppSeg, parseParams qpSeg with
    | some pps, some qps =>
      match
        (if trimC bodySeg = ['-'] then some none
         else (parseRefAll bodySeg).map some) with
      | none => .error (Error.malformedDeclaration file)
      | some bodyRef =>
        match parseRefAll respSeg with
        | none => .error (Error.malformedDeclaration file)
        | some resp =>
          .ok (RouteDecl.mk methodTok pathTok
                (pps.map (fun x => Param.mk x.1 x.2.2))
                (qps.map (fun x => QueryParam.mk x.1 x.2.2 x.2.1))
                bodyRef resp)
    | _, _ => .error (Error.malformedDeclaration file)
  | _, _ => .error (Error.malformedDeclaration file)

/-- Parse one line: a marked declaration, or `none` for any other line
(spec 4.2: unrecognized constructs are skipped, never errors). -/
def parseLine (file : String) (line : List Char) :
    Except Error (Option (Sum TypeDecl RouteDecl)) :=
  match (splitOnC ';' line).map trimC with
  | [] => .ok none
  | header :: rest =>
    let ws := wordsC header
    match ws.head? with
    | some "serializable" =>
      match parseTypeLine file ws rest with
      | .error e => .error e
      | .ok d => .ok (some (Sum.inl d))
    | some "route" =>
      match parseRouteLine file ws rest with
      | .error e => .error e
      | .ok r => .ok (some (Sum.inr r))
    | _ => .ok none

/-- Parse the lines of one source unit in order, collecting type and
route candidates. -/
def parseLines (file : String) : List (List Char) →
    Except Error (List TypeDecl × List RouteDecl)
  | [] => .ok ([], [])
  | l :: ls =>
    match parseLine file l with
    | .error e => .error e
    | .ok item =>
      match parseLines file ls with
      | .error e => .error e
      | .ok (ds, rs) =>
        match item with
        | none => .ok (ds, rs)
        | some (Sum.inl d) => .ok (d :: ds, rs)
        | some (Sum.inr r) => .ok (ds, r :: rs)

/-- Modelled from the spec (4.2): tolerant per-file parse pass. -/
def parseUnit (u : SourceUnit) : Except Error (List TypeDecl × List RouteDecl) :=
  parseLines u.path (splitOnC '\n' u.text.data)

/-- Concatenate the candidates of every scanned unit, in scan order. -/
def parseAll (units : List SourceUnit) :
    Except Error (List TypeDecl × List RouteDecl) :=
  match mapE parseUnit units with
  | .error e => .error e
  | .ok results => .ok ((results.map Prod.fst).flatten, (results.map Prod.snd).flatten)

/-! ### Type Resolver (spec section 4.3) -/

/-- Insert one declaration into the symbol table, failing with
DuplicateType when the name is already present (spec 4.3: a duplicate is
an error, never a silent overwrite). -/
def insertDecl (tab : List TypeDecl) (d : TypeDecl) : Except Error (List TypeDecl) :=
  match (tab.map TypeDecl.name).contains d.name with
  | true => .error (Error.duplicateType d.name)
  | false => .ok (tab ++ [d])

/-- Fold all declarations into a symbol table, left to right. -/
def buildTable (acc : List TypeDecl) : List TypeDecl → Except Error (List TypeDecl)
  | [] => .ok acc
  | d :: ds =>
    match insertDecl acc d with
    | .error e => .error e
    | .ok acc2 => buildTable acc2 ds

/-- Modelled from the spec (4.3): build the SymbolTable by name; fails
with DuplicateType when two declarations share a name. -/
def buildSymbolTable (ds : List TypeDecl) : Except Error (List TypeDecl) :=
  buildTable [] ds

/-- Names referenced by a canonical type reference. -/
def refNames : TypeRef → List String
  | .primitive _ => []
  | .named n => [n]
  | .list t => refNames t
  | .optional t => refNames t
  | .map k v => refNames k ++ refNames v

/-- Check one field's reference against the symbol-table names; fails
with UnknownType naming the offending type, declaration and field. -/
def checkField (tabNames : List String) (tyName : String) (f : Field) :
    Except Error Unit :=
  match (refNames f.ty).find? (fun n => ! tabNames.contains n) with
  | some n => .error (Error.unknownType n tyName f.name)
  | none => .ok ()

/-- Check every field of one declaration. -/
def checkDecl (tabNames : List String) (d : TypeDecl) : Except Error Unit :=
  forE (checkField tabNames d.name) d.fields

/-- Modelled from the spec (4.3): two-pass resolution — collect all
declarations into the SymbolTable, then check every field reference
against it.  A cyclic reference chain is not consulted and hence never
an error. -/
def resolveTypes (ds : List TypeDecl) : Except Error (List TypeDecl) :=
  match buildSymbolTable ds with
  | .error e => .error e
  | .ok tab =>
    match forE (checkDecl (tab.map TypeDecl.name)) tab with
    | .error e => .error e
    | .ok _ => .ok tab

/-! ### Route Model Builder (spec section 4.4) -/

/-- Placeholder names of a path template: the text between each left and
right brace pair, fuelled by the character count. -/
def placeholdersAux : Nat → List Char → List String
  | _, [] => []
  | 0, _ :: _ => []
  | fuel + 1, c :: cs =>
    if c = lbrace then
      String.mk (cs.takeWhile (fun x => x ≠ rbrace)) ::
        placeholdersAux fuel ((cs.dropWhile (fun x => x ≠ rbrace)).drop 1)
    else placeholdersAux fuel cs

/-- Placeholder names occurring in a path template string. -/
def pathPlaceholders (p : String) : List String :=
  placeholdersAux p.data.length p.data

/-- Modelled from the spec (4.4): every placeholder must have a matching
declared path parameter and vice versa; a mismatch in either direction
fails with PathParamMismatch. -/
def checkPathParams (r : RouteDecl) : Except Error Unit :=
  match (pathPlaceholders r.path).all (fun n => (r.pathParams.map Param.name).contains n) &&
      (r.pathParams.map Param.name).all (fun n => (pathPlaceholders r.path).contains n) with
  | true => .ok ()
  | false => .error (Error.pathParamMismatch r.method r.path)

/-- Names referenced anywhere in a route's parameters, body or response. -/
def routeRefNames (r : RouteDecl) : List String :=
  (r.pathParams.map (fun p => refNames p.ty)).flatten ++
    (r.queryParams.map (fun q => refNames q.ty)).flatten ++
    (match r.body with
     | some t => refNames t
     | none => []) ++
    refNames r.response

/-- Check a route's references against the symbol-table names. -/
def checkRouteRefs (tabNames : List String) (r : RouteDecl) : Except Error Unit :=
  match (routeRefNames r).find? (fun n => ! tabNames.contains n) with
  | some n => .error (Error.unknownType n (r.method ++ " " ++ r.path) "")
  | none => .ok ()

/-- Validate one route: path/placeholder consistency first, then
reference resolution against the shared SymbolTable (spec 4.4). -/
def checkRoute (tabNames : List String) (r : RouteDecl) : Except Error Unit :=
  match checkPathParams r with
  | .error e => .error e
  | .ok _ => checkRouteRefs tabNames r

/-- Reject two routes sharing the same (method, path template) pair. -/
def checkDupRoutes (seen : List (String × String)) :
    List RouteDecl → Except Error Unit
  | [] => .ok ()
  | r :: rest =>
    if seen.contains (r.method, r.path) then
      .error (Error.duplicateRoute r.method r.path)
    else checkDupRoutes ((r.method, r.path) :: seen) rest

/-- Emission order on routes: path template, then method (spec 4.4). -/
def routeLe (a b : RouteDecl) : Prop :=
  (if a.path = b.path then strLeB a.method b.method
   else strLeB a.path b.path) = true

instance : DecidableRel routeLe := fun _ _ => instDecidableEqBool _ true

/-- Modelled from the spec (4.4): validate every route against the
resolved SymbolTable, reject duplicate (method, path) pairs, and order
the result by (path template, then method). -/
def buildRoutes (tab : List TypeDecl) (rs : List RouteDecl) :
    Except Error (List RouteDecl) :=
  match forE (checkRoute (tab.map TypeDecl.name)) rs with
  | .error e => .error e
  | .ok _ =>
    match checkDupRoutes [] rs with
    | .error e => .error e
    | .ok _ => .ok (List.insertionSort routeLe rs)

/-! ### Code Emitter (spec section 4.5) -/

/-- Fixed, total primitive rendering table; a primitive kind outside it
fails with UnsupportedType (spec 4.5). -/
def primMap (kind : String) : Option String :=
  if kind = "string" then some "string"
  else if kind = "number" then some "number"
  else if kind = "bool" then some "boolean"
  else none

/-- Render one canonical type reference.  A named reference is rendered
as the bare name — never expanded inline — so cyclic reference chains
render in finite text. -/
def renderRef : TypeRef → Except Error String
  | .primitive k =>
    match primMap k with
    | some s => .ok s
    | none => .error (Error.unsupportedType k)
  | .named n => .ok n
  | .list t =>
    match renderRef t with
    | .error e => .error e
    | .ok s => .ok ("Array<" ++ s ++ ">")
  | .optional t =>
    match renderRef t with
    | .error e => .error e
    | .ok s => .ok (s ++ " | undefined")
  | .map k v =>
    match renderRef k with
    | .error e => .error e
    | .ok sk =>
      match renderRef v with
      | .error e => .error e
      | .ok sv => .ok ("Record<" ++ sk ++ ", " ++ sv ++ ">")

/-- Render one field, in its original declaration order position. -/
def renderField (f : Field) : Except Error String :=
  match renderRef f.ty with
  | .error e => .error e
  | .ok s =>
    .ok ("  " ++ f.name ++ (if f.optional then "?" else "") ++ ": " ++ s ++ ";")

/-- Render one output type declaration. -/
def renderTypeDecl (d : TypeDecl) : Except Error String :=
  match mapE renderField d.fields with
  | .error e => .error e
  | .ok fs =>
    .ok ("export interface " ++ d.name ++ " \x7b\n" ++ joinSep "\n" fs ++ "\n\x7d")

/-- Name order on type declarations for sorted emission (spec 4.5). -/
def declLe (a b : TypeDecl) : Prop := strLeB a.name b.name = true

instance : DecidableRel declLe := fun _ _ => instDecidableEqBool _ true

/-- Type declarations in emission order: sorted by name. -/
def sortTypes (tab : List TypeDecl) : List TypeDecl :=
  List.insertionSort declLe tab

/-- Render one declaration keyed by its name. -/
def emitOne (d : TypeDecl) : Except Error (String × String) :=
  match renderTypeDecl d with
  | .error e => .error e
  | .ok s => .ok (d.name, s)

/-- Modelled from the spec (4.5): one rendered block per resolved
TypeDecl, sorted by name, keyed by the declaration name. -/
def emitTypePlan (tab : List TypeDecl) : Except Error (List (String × String)) :=
  mapE emitOne (sortTypes tab)

/-- Render one typed request-function signature for a route. -/
def renderRoute (r : RouteDecl) : Except Error String :=
  match mapE (fun p => match renderRef p.ty with
      | .error e => .error e
      | .ok s => .ok (p.name ++ ": " ++ s)) r.pathParams with
  | .error e => .error e
  | .ok ps =>
    match mapE (fun q => match renderRef q.ty with
        | .error e => .error e
        | .ok s => .ok (q.name ++ (if q.optional then "?" else "") ++ ": " ++ s))
        r.queryParams with
    | .error e => .error e
    | .ok qs =>
      match
        (match r.body with
         | none => Except.ok ([] : List String)
         | some t =>
           match renderRef t with
           | .error e => .error e
           | .ok s => .ok (["body: " ++ s])) with
      | .error e => .error e
      | .ok bs =>
        match renderRef r.response with
        | .error e => .error e
        | .ok resp =>
          .ok ("export function " ++ r.method ++ " " ++ r.path ++ "(" ++
            joinSep ", " (ps ++ qs ++ bs) ++ "): Promise<" ++ resp ++ ">")

/-! ### Full pipeline and invocation contract (spec sections 5 and 6) -/

/-- Render the full output text from parsed candidates: resolve types,
build routes, emit sorted type blocks then route blocks. -/
def renderFromDecls (ds : List TypeDecl) (rs : List RouteDecl) :
    Except Error String :=
  match resolveTypes ds with
  | .error e => .error e
  | .ok tab =>
    match buildRoutes tab rs with
    | .error e => .error e
    | .ok routes =>
      match emitTypePlan tab with
      | .error e => .error e
      | .ok plan =>
        match mapE renderRoute routes with
        | .error e => .error e
        | .ok rblocks =>
          .ok (joinSep "\n\n" (plan.map Prod.snd ++ rblocks))

/-- Modelled from the spec (sections 2 and 5): the pure scan → parse →
resolve → build-routes → emit pipeline, rendering to a buffer. -/
def renderOutput (fs : FileSystem) (inputs : List String) : Except Error String :=
  match scan fs inputs with
  | .error e => .error e
  | .ok units =>
    match parseAll units with
    | .error e => .error e
    | .ok (ds, rs) => renderFromDecls ds rs

/-- Observable write targets of one invocation: the contents of the file
at the output path (`none` when absent) and the standard output stream. -/
structure World where
  outFile : Option String
  stdout : String
deriving DecidableEq

/-- Modelled from the spec (section 6 invocation contract): render the
whole output to a buffer first; on any error return it with the world
untouched; on success write once — to standard output when debug is set,
otherwise to the output destination. -/
def process (fs : FileSystem) (inputs : List String) (_outputPath : String)
    (debug : Bool) (w : World) : Except Error Unit × World :=
  match renderOutput fs inputs with
  | .error e => (.error e, w)
  | .ok text =>
    match debug with
    | true => (.ok (), World.mk w.outFile (w.stdout ++ text))
    | false => (.ok (), World.mk (some text) w.stdout)

/-! ### Reachability (spec section 8, referential completeness) -/

/-- Names directly referenced by the fields of one declaration. -/
def declRefNames (d : TypeDecl) : List String :=
  (d.fields.map (fun f => refNames f.ty)).flatten

/-- One expansion step of the reachable-name set. -/
def expandOnce (tab : List TypeDecl) (seen : List String) : List String :=
  seen ++ (((tab.filter (fun d => seen.contains d.name)).map declRefNames).flatten.filter
    (fun n => ¬ seen.contains n))

/-- Iterate expansion; a fuel of the table size reaches a fixed point. -/
def reachLoop (tab : List TypeDecl) : Nat → List String → List String
  | 0, seen => seen
  | k + 1, seen => reachLoop tab k (expandOnce tab seen)

/-- Type names reachable from any route's parameter, body or response
types, through chains of declared types. -/
def reachableNames (rs : List RouteDecl) (tab : List TypeDecl) : List String :=
  reachLoop tab tab.length ((rs.map routeRefNames).flatten)

/-! ### Concrete example inputs

Small closed inputs used to instantiate the claim theorems. -/

/-- One source file declaring one serializable type. -/
def fsW1 : FileSystem := FileSystem.mk [("a.rs", "serializable product Ping ; ok : bool")]

/-- Rendered output of `fsW1`. -/
def tW1 : String := "export interface Ping \x7b\n  ok: boolean;\n\x7d"

/-- An empty filesystem: every input path is missing. -/
def fsW2 : FileSystem := FileSystem.mk []

/-- A world whose output destination already holds text. -/
def wW2 : World := World.mk (some "keep") ""

/-- A service directory holding one serializable type. -/
def fsW3 : FileSystem := FileSystem.mk
  [("svc/api.rs", "serializable product Health ; up : bool")]

/-- Rendered output of `fsW3`. -/
def tW3 : String := "export interface Health \x7b\n  up: boolean;\n\x7d"

/-- A world with pre-existing output-file contents. -/
def wW3 : World := World.mk (some "previous") ""

/-- Two source files declaring the same type name Dup. -/
def fsW4 : FileSystem := FileSystem.mk
  [("a.rs", "serializable product Dup ; x : string"),
   ("b.rs", "serializable product Dup ; y : number")]

/-- Scan result of `fsW4`. -/
def unitsW4 : List SourceUnit :=
  [SourceUnit.mk "a.rs" "serializable product Dup ; x : string",
   SourceUnit.mk "b.rs" "serializable product Dup ; y : number"]

/-- Parsed type candidates of `fsW4`: two declarations named Dup. -/
def dsW4 : List TypeDecl :=
  [TypeDecl.mk "Dup" TypeKind.product [Field.mk "x" (TypeRef.primitive "string") false],
   TypeDecl.mk "Dup" TypeKind.product [Field.mk "y" (TypeRef.primitive "number") false]]

/-- Declarations with a direct self-reference (Node) and a two-step
reference cycle (A and B). -/
def dsW5 : List TypeDecl :=
  [TypeDecl.mk "Node" TypeKind.product
     [Field.mk "next" (TypeRef.optional (TypeRef.named "Node")) true],
   TypeDecl.mk "A" TypeKind.product [Field.mk "b" (TypeRef.named "B") false],
   TypeDecl.mk "B" TypeKind.product [Field.mk "a" (TypeRef.named "A") false]]

/-- A route whose path placeholder id has no matching declared parameter
(the declared parameter is named itemId). -/
def rW6 : RouteDecl :=
  RouteDecl.mk "GET" "/items/{id}" [Param.mk "itemId" (TypeRef.primitive "string")]
    [] none (TypeRef.primitive "string")

/-- A symbol table where Bar references Foo. -/
def tabW7 : List TypeDecl :=
  [TypeDecl.mk "Bar" TypeKind.product [Field.mk "foo" (TypeRef.named "Foo") false],
   TypeDecl.mk "Foo" TypeKind.product [Field.mk "f" (TypeRef.primitive "string") false]]

/-- One route whose response references Bar (and hence, transitively,
Foo). -/
def routesW7 : List RouteDecl :=
  [RouteDecl.mk "GET" "/bars" [] [] none (TypeRef.named "Bar")]

/-- Emission plan of `tabW7`. -/
def planW7 : List (String × String) :=
  [("Bar", "export interface Bar \x7b\n  foo: Foo;\n\x7d"),
   ("Foo", "export interface Foo \x7b\n  f: string;\n\x7d")]

end QSync

namespace Cli

/-- Argument computation of the qsync invocation inside configure_project
(src/create-rust-app_cli/src/main.rs lines 502-507): the input list
defaults to the single path backend/services, the output path defaults to
frontend/src/api.generated.ts, and the debug flag is passed through. -/
def qsyncInvocationArgs (qsync_input_files : Option (List String))
    (qsync_output_file : Option String) (qsync_debug : Bool) :
    List String × String × Bool :=
  (qsync_input_files.getD ["backend/services"],
   qsync_output_file.getD "frontend/src/api.generated.ts",
   qsync_debug)

end Cli

namespace Auth

/-- Pagination parameters as used by UserSession::read_all
(src/create-rust-app/src/auth/user_session.rs); page and page_size are
signed 64-bit values in the source, embedded as Int. -/
structure PaginationParams where
  page : Int
  page_size : Int
deriving DecidableEq

/-- Shape of the diesel query built by UserSession::read_all: a filter on
user_id, an order column, a row limit and a row offset. -/
structure UserSessionQuery where
  filter_user_id : Int
  order_column : String
  limit : Int
  offset : Int
deriving DecidableEq

/-- Query built by UserSession::read_all
(src/create-rust-app/src/auth/user_session.rs lines 80-96):
filter(user_id.eq(item_user_id)).order(created_at)
.limit(pagination.page_size)
.offset(pagination.page * min(pagination.page_size, MAX_PAGE_SIZE)).
The constant PaginationParams::MAX_PAGE_SIZE is declared outside the
provided sources, so it is a parameter here; the claims do not depend on
its value. -/
def read_all_query (maxPageSize : Int) (pagination : PaginationParams)
    (item_user_id : Int) : UserSessionQuery :=
  UserSessionQuery.mk item_user_id "created_at" pagination.page_size
    (pagination.page * min pagination.page_size maxPageSize)

end Auth

namespace QSync

/-! ### Lemmas about the symbol-table fold -/

/-- Inserting an already-present name reports DuplicateType. -/
theorem insertDecl_hit (acc : List TypeDecl) (d : TypeDecl)
    (hc : (acc.map TypeDecl.name).contains d.name = true) :
    insertDecl acc d = .error (Error.duplicateType d.name) := by
  unfold insertDecl
  rw [hc]

/-- Inserting a fresh name appends the declaration. -/
theorem insertDecl_miss (acc : List TypeDecl) (d : TypeDecl)
    (hc : (acc.map TypeDecl.name).contains d.name = false) :
    insertDecl acc d = .ok (acc ++ [d]) := by
  unfold insertDecl
  rw [hc]

/-- A successful table fold implies the accumulated names are distinct. -/
theorem buildTable_ok_nodup : ∀ (ds acc tab : List TypeDecl),
    (acc.map TypeDecl.name).Nodup → buildTable acc ds = .ok tab →
    ((acc ++ ds).map TypeDecl.name).Nodup
  | [], acc, tab, hacc, _ => by simpa using hacc
  | d :: ds, acc, tab, hacc, h => by
    simp only [buildTable] at h
    cases hc : (acc.map TypeDecl.name).contains d.name with
    | true =>
      rw [insertDecl_hit acc d hc] at h
      simp at h
    | false =>
      rw [insertDecl_miss acc d hc] at h
      have hmem : d.name ∉ acc.map TypeDecl.name := by
        simpa [List.contains] using hc
      have hacc2 : ((acc ++ [d]).map TypeDecl.name).Nodup := by
        rw [List.map_append]
        refine List.Nodup.append hacc (List.nodup_singleton _) ?_
        intro a ha hb
        rw [List.map_singleton, List.mem_singleton] at hb
        exact hmem (hb ▸ ha)
      have := buildTable_ok_nodup ds (acc ++ [d]) tab hacc2 h
      simpa [List.append_assoc] using this

/-- The table fold only ever fails with DuplicateType. -/
theorem buildTable_error_dup : ∀ (ds acc : List TypeDecl) (e : Error),
    buildTable acc ds = .error e → ∃ n, e = Error.duplicateType n
  | [], acc, e, h => by simp [buildTable] at h
  | d :: ds, acc, e, h => by
    simp only [buildTable] at h
    cases hc : (acc.map TypeDecl.name).contains d.name with
    | true =>
      rw [insertDecl_hit acc d hc] at h
      simp only [Except.error.injEq] at h
      exact ⟨d.name, h.symm⟩
    | false =>
      rw [insertDecl_miss acc d hc] at h
      exact buildTable_error_dup ds (acc ++ [d]) e h

/-- With distinct names the table fold succeeds and keeps every
declaration, in order. -/
theorem buildTable_ok_of_nodup : ∀ (ds acc : List TypeDecl),
    ((acc ++ ds).map TypeDecl.name).Nodup → buildTable acc ds = .ok (acc ++ ds)
  | [], acc, _ => by simp [buildTable]
  | d :: ds, acc, h => by
    have hmem : d.name ∉ acc.map TypeDecl.name := by
      have h2 := h
      rw [List.map_append, List.nodup_append] at h2
      intro ha
      exact h2.2.2 ha (by simp)
    have hc : (acc.map TypeDecl.name).contains d.name = false := by
      simpa [List.contains] using hmem
    simp only [buildTable]
    rw [insertDecl_miss acc d hc]
    have := buildTable_ok_of_nodup ds (acc ++ [d]) (by simpa [List.append_assoc] using h)
    simpa [List.append_assoc] using this

/-- Duplicate names make the symbol-table construction fail with
DuplicateType. -/
theorem buildSymbolTable_dup (ds : List TypeDecl)
    (hdup : ¬ (ds.map TypeDecl.name).Nodup) :
    ∃ n, buildSymbolTable ds = .error (Error.duplicateType n) := by
  cases hb : buildSymbolTable ds with
  | ok tab =>
    exact absurd (by simpa using buildTable_ok_nodup ds [] tab (by simp) hb) hdup
  | error e =>
    obtain ⟨n, hn⟩ := buildTable_error_dup ds [] e hb
    exact ⟨n, by rw [hn]⟩

/-! ### Lemmas about reference checking -/

/-- A list of all-passing checks runs to completion. -/
theorem forE_ok {α : Type} (f : α → Except Error Unit) :
    ∀ l : List α, (∀ a ∈ l, f a = .ok ()) → forE f l = .ok ()
  | [], _ => rfl
  | a :: l, h => by
    simp only [forE, h a (List.mem_cons_self a l)]
    exact forE_ok f l (fun x hx => h x (List.mem_cons_of_mem a hx))

/-- A field whose referenced names are all in the table checks out. -/
theorem checkField_ok (names : List String) (tyName : String) (f : Field)
    (h : ∀ n ∈ refNames f.ty, n ∈ names) :
    checkField names tyName f = .ok () := by
  have hf : (refNames f.ty).find? (fun n => ! names.contains n) = none := by
    rw [List.find?_eq_none]
    intro x hx
    simp [List.contains, h x hx]
  unfold checkField
  rw [hf]

/-- Resolution succeeds on any closed, duplicate-free declaration set —
cyclic reference chains included. -/
theorem resolveTypes_ok (ds : List TypeDecl)
    (h1 : (ds.map TypeDecl.name).Nodup)
    (h2 : ∀ d ∈ ds, ∀ f ∈ d.fields, ∀ n ∈ refNames f.ty, n ∈ ds.map TypeDecl.name) :
    resolveTypes ds = .ok ds := by
  have hbst : buildSymbolTable ds = .ok ds := by
    have := buildTable_ok_of_nodup ds [] (by simpa using h1)
    simpa [buildSymbolTable] using this
  have hfor : forE (checkDecl (ds.map TypeDecl.name)) ds = .ok () := by
    refine forE_ok _ ds (fun d hd => ?_)
    show forE (checkField (ds.map TypeDecl.name) d.name) d.fields = .ok ()
    exact forE_ok _ d.fields (fun f hf => checkField_ok _ _ _ (h2 d hd f hf))
  simp [resolveTypes, hbst, hfor]

/-! ### Lemmas about the deterministic name order -/

/-- The codepoint order is total. -/
theorem natLexLeB_total : ∀ x y : List Nat,
    natLexLeB x y = true ∨ natLexLeB y x = true
  | [], _ => Or.inl rfl
  | _ :: _, [] => Or.inr rfl
  | a :: as, b :: bs => by
    by_cases hab : a = b
    · subst hab
      rcases natLexLeB_total as bs with h | h
      · exact Or.inl (by simpa [natLexLeB] using h)
      · exact Or.inr (by simpa [natLexLeB] using h)
    · rcases Nat.lt_or_ge a b with h2 | h2
      · exact Or.inl (by simp [natLexLeB, hab, h2])
      · have hba : b ≠ a := fun hh => hab hh.symm
        have hlt : b < a := lt_of_le_of_ne h2 hba
        exact Or.inr (by simp [natLexLeB, hba, hlt])

/-- The codepoint order is transitive. -/
theorem natLexLeB_trans : ∀ x y z : List Nat,
    natLexLeB x y = true → natLexLeB y z = true → natLexLeB x z = true
  | [], _, _, _, _ => rfl
  | _ :: _, [], _, h1, _ => by simp [natLexLeB] at h1
  | _ :: _, _ :: _, [], _, h2 => by simp [natLexLeB] at h2
  | a :: as, b :: bs, c :: cs, h1, h2 => by
    by_cases hab : a = b <;> by_cases hbc : b = c
    · subst hab; subst hbc
      simp only [natLexLeB, if_pos rfl] at h1 h2 ⊢
      exact natLexLeB_trans as bs cs h1 h2
    · subst hab
      simp only [natLexLeB, if_neg hbc] at h2
      simp only [natLexLeB, if_neg hbc]
      exact h2
    · subst hbc
      simp only [natLexLeB, if_neg hab] at h1
      simp only [natLexLeB, if_neg hab]
      exact h1
    · simp only [natLexLeB, if_neg hab] at h1
      simp only [natLexLeB, if_neg hbc] at h2
      have hac : a < c := Nat.lt_trans (by simpa using h1) (by simpa using h2)
      simp [natLexLeB, Nat.ne_of_lt hac, hac]

/-! ### Lemmas about emission -/

/-- The emitted blocks are keyed by the declarations they render, in
order. -/
theorem mapE_emitOne_fst : ∀ (l : List TypeDecl) (plan : List (String × String)),
    mapE emitOne l = .ok plan → plan.map Prod.fst = l.map TypeDecl.name
  | [], plan, h => by
    simp only [mapE] at h
    cases h
    rfl
  | d :: l, plan, h => by
    simp only [mapE] at h
    cases he : emitOne d with
    | error e => rw [he] at h; simp at h
    | ok x =>
      rw [he] at h
      cases hm : mapE emitOne l with
      | error e => rw [hm] at h; simp at h
      | ok bs =>
        rw [hm] at h
        simp only [Except.ok.injEq] at h
        subst h
        have hx : x.1 = d.name := by
          unfold emitOne at he
          cases hr : renderTypeDecl d with
          | error e => rw [hr] at he; simp at he
          | ok s =>
            rw [hr] at he
            simp only [Except.ok.injEq] at he
            rw [← he]
        simp [hx, mapE_emitOne_fst l bs hm]

/-- The sorted emission order really is sorted by name. -/
theorem sortTypes_names_sorted (tab : List TypeDecl) :
    List.Sorted (fun a b : String => strLeB a b = true)
      ((sortTypes tab).map TypeDecl.name) := by
  haveI : IsTotal TypeDecl declLe := ⟨fun a b => natLexLeB_total _ _⟩
  haveI : IsTrans TypeDecl declLe :=
    ⟨fun _ _ _ hab hbc => natLexLeB_trans _ _ _ hab hbc⟩
  have hs : List.Sorted declLe (sortTypes tab) :=
    List.sorted_insertionSort declLe tab
  exact List.Pairwise.map TypeDecl.name (fun _ _ hab => hab) hs

/-- In a duplicate-free table every member's name occurs exactly once in
the sorted emission order. -/
theorem sortTypes_names_count (tab : List TypeDecl) (T : TypeDecl)
    (h1 : (tab.map TypeDecl.name).Nodup) (h2 : T ∈ tab) :
    ((sortTypes tab).map TypeDecl.name).count T.name = 1 := by
  have hperm : List.Perm ((sortTypes tab).map TypeDecl.name) (tab.map TypeDecl.name) :=
    (List.perm_insertionSort declLe tab).map TypeDecl.name
  rw [hperm.count_eq]
  exact List.count_eq_one_of_mem h1 (List.mem_map_of_mem TypeDecl.name h2)

/-! ### Claim theorems -/

/-- C1: running the pipeline twice on identical input produces
byte-identical output text on both runs — whenever rendering succeeds
with text t, both the first run and a second run on the world left by
the first write exactly t to the destination. -/
theorem C1_pipeline_deterministic (fs : FileSystem) (inputs : List String)
    (out : String) (w : World) (t : String)
    (h : renderOutput fs inputs = .ok t) :
    process fs inputs out false w = (.ok (), World.mk (some t) w.stdout) ∧
    process fs inputs out false ((process fs inputs out false w).2) =
      (.ok (), World.mk (some t) w.stdout) := by
  constructor
  · simp [process, h]
  · simp [process, h]

/-- Witness for C1: a concrete two-run invocation writing identical
bytes both times. -/
theorem C1_pipeline_deterministic_witness :
    process fsW1 ["a.rs"] "frontend/src/api.generated.ts" false (World.mk none "") =
      (.ok (), World.mk (some tW1) "") ∧
    process fsW1 ["a.rs"] "frontend/src/api.generated.ts" false
      ((process fsW1 ["a.rs"] "frontend/src/api.generated.ts" false (World.mk none "")).2) =
      (.ok (), World.mk (some tW1) "") :=
  C1_pipeline_deterministic fsW1 ["a.rs"] "frontend/src/api.generated.ts"
    (World.mk none "") tW1 rfl

/-- C2: an invocation that fails with any error of the taxonomy writes
nothing — it returns the error with the destination (and standard
output) exactly as they were. -/
theorem C2_error_atomicity (fs : FileSystem) (inputs : List String)
    (out : String) (dbg : Bool) (w : World) (e : Error)
    (h : renderOutput fs inputs = .error e) :
    process fs inputs out dbg w = (.error e, w) := by
  simp [process, h]

/-- Witness for C2: a failing invocation leaves existing destination
contents untouched. -/
theorem C2_error_atomicity_witness :
    process fsW2 ["backend"] "frontend/src/api.generated.ts" false wW2 =
      (.error (Error.notFound "backend"), wW2) :=
  C2_error_atomicity fsW2 ["backend"] "frontend/src/api.generated.ts" false wW2
    (Error.notFound "backend") rfl

/-- C3: with debug set, the output file's contents are unchanged in
every case, and on success the rendered text goes to standard output. -/
theorem C3_debug_nonmutation (fs : FileSystem) (inputs : List String)
    (out : String) (w : World) :
    (process fs inputs out true w).2.outFile = w.outFile ∧
    ∀ t, renderOutput fs inputs = .ok t →
      process fs inputs out true w = (.ok (), World.mk w.outFile (w.stdout ++ t)) := by
  cases h : renderOutput fs inputs with
  | error e =>
    refine ⟨by simp [process, h], fun t ht => ?_⟩
    cases ht
  | ok t0 =>
    refine ⟨by simp [process, h], fun t ht => ?_⟩
    cases ht
    simp [process, h]

/-- Witness for C3: a debug run against an existing output file keeps
its contents and prints the rendered text. -/
theorem C3_debug_nonmutation_witness :
    (process fsW3 ["svc"] "frontend/src/api.generated.ts" true wW3).2.outFile =
      some "previous" ∧
    process fsW3 ["svc"] "frontend/src/api.generated.ts" true wW3 =
      (.ok (), World.mk (some "previous") ("" ++ tW3)) :=
  ⟨(C3_debug_nonmutation fsW3 ["svc"] "frontend/src/api.generated.ts" wW3).1,
   (C3_debug_nonmutation fsW3 ["svc"] "frontend/src/api.generated.ts" wW3).2 tW3 rfl⟩

/-- C4: an input set containing two type declarations with the same name
makes the Type Resolver fail with DuplicateType, the pipeline abort, and
nothing be written — never a silent overwrite. -/
theorem C4_duplicate_type_aborts (fs : FileSystem) (inputs : List String)
    (out : String) (dbg : Bool) (w : World) (units : List SourceUnit)
    (ds : List TypeDecl) (rs : List RouteDecl)
    (hscan : scan fs inputs = .ok units)
    (hparse : parseAll units = .ok (ds, rs))
    (hdup : ¬ (ds.map TypeDecl.name).Nodup) :
    ∃ n, resolveTypes ds = .error (Error.duplicateType n) ∧
      renderOutput fs inputs = .error (Error.duplicateType n) ∧
      process fs inputs out dbg w = (.error (Error.duplicateType n), w) := by
  obtain ⟨n, hb⟩ := buildSymbolTable_dup ds hdup
  have hres : resolveTypes ds = .error (Error.duplicateType n) := by
    simp [resolveTypes, hb]
  have hro : renderOutput fs inputs = .error (Error.duplicateType n) := by
    simp [renderOutput, hscan, hparse, renderFromDecls, hres]
  exact ⟨n, hres, hro, by simp [process, hro]⟩

/-- Witness for C4: the name Dup declared in two different files. -/
theorem C4_duplicate_type_aborts_witness :
    ∃ n, resolveTypes dsW4 = .error (Error.duplicateType n) ∧
      renderOutput fsW4 ["a.rs", "b.rs"] = .error (Error.duplicateType n) ∧
      process fsW4 ["a.rs", "b.rs"] "frontend/src/api.generated.ts" false
        (World.mk none "") = (.error (Error.duplicateType n), World.mk none "") :=
  C4_duplicate_type_aborts fsW4 ["a.rs", "b.rs"] "frontend/src/api.generated.ts"
    false (World.mk none "") unitsW4 dsW4 [] rfl rfl (by decide)

/-- C5: declarations whose fields reference themselves, directly or
through a chain, resolve successfully (a cycle is not an error), and the
emitter renders a cyclic (named) reference as the bare name, never an
inline expansion. -/
theorem C5_cycles_resolve (ds : List TypeDecl)
    (h1 : (ds.map TypeDecl.name).Nodup)
    (h2 : ∀ d ∈ ds, ∀ f ∈ d.fields, ∀ n ∈ refNames f.ty, n ∈ ds.map TypeDecl.name) :
    resolveTypes ds = .ok ds ∧ ∀ n, renderRef (TypeRef.named n) = .ok n :=
  ⟨resolveTypes_ok ds h1 h2, fun _ => rfl⟩

/-- Witness for C5: a direct self-reference and a two-type cycle both
resolve, and the self-reference renders as a name. -/
theorem C5_cycles_resolve_witness :
    resolveTypes dsW5 = .ok dsW5 ∧ renderRef (TypeRef.named "Node") = .ok "Node" :=
  ⟨(C5_cycles_resolve dsW5 (by decide) (by decide)).1,
   (C5_cycles_resolve dsW5 (by decide) (by decide)).2 "Node"⟩

/-- C6: route validation succeeds only when the placeholder set of the
path template equals the declared path-parameter name set, and any
mismatch in either direction fails with PathParamMismatch. -/
theorem C6_path_param_consistency (tabNames : List String) (r : RouteDecl) :
    (checkRoute tabNames r = .ok () →
      ∀ n, n ∈ pathPlaceholders r.path ↔ n ∈ r.pathParams.map Param.name) ∧
    ((¬ ∀ n, n ∈ pathPlaceholders r.path ↔ n ∈ r.pathParams.map Param.name) →
      checkRoute tabNames r = .error (Error.pathParamMismatch r.method r.path)) := by
  have key : ((pathPlaceholders r.path).all
        (fun n => (r.pathParams.map Param.name).contains n) &&
      (r.pathParams.map Param.name).all
        (fun n => (pathPlaceholders r.path).contains n)) = true ↔
      ∀ n, n ∈ pathPlaceholders r.path ↔ n ∈ r.pathParams.map Param.name := by
    simp only [Bool.and_eq_true, List.all_eq_true, List.contains, List.elem_eq_mem,
      decide_eq_true_eq]
    constructor
    · rintro ⟨ha, hb⟩ n
      exact ⟨ha n, hb n⟩
    · intro h
      exact ⟨fun n hn => (h n).mp hn, fun n hn => (h n).mpr hn⟩
  cases hc : ((pathPlaceholders r.path).all
      (fun n => (r.pathParams.map Param.name).contains n) &&
      (r.pathParams.map Param.name).all
      (fun n => (pathPlaceholders r.path).contains n)) with
  | true =>
    exact ⟨fun _ => key.mp hc, fun hn => absurd (key.mp hc) hn⟩
  | false =>
    have hcp : checkPathParams r = .error (Error.pathParamMismatch r.method r.path) := by
      unfold checkPathParams
      rw [hc]
    have hcr : checkRoute tabNames r = .error (Error.pathParamMismatch r.method r.path) := by
      unfold checkRoute
      rw [hcp]
    refine ⟨fun hok => ?_, fun _ => hcr⟩
    rw [hcr] at hok
    exact absurd hok (by simp)

/-- Witness for C6: GET /items/\x7bid\x7d with the parameter named
itemId fails with PathParamMismatch. -/
theorem C6_path_param_consistency_witness :
    checkRoute [] rW6 = .error (Error.pathParamMismatch "GET" "/items/{id}") :=
  (C6_path_param_consistency [] rW6).2
    (fun h => absurd ((h "id").mp (by decide)) (by decide))

/-- C7: in a successfully emitted plan over a duplicate-free table,
every table member reachable from the routes is rendered exactly once,
and the rendered type declarations appear sorted by name. -/
theorem C7_referential_completeness (tab : List TypeDecl) (routes : List RouteDecl)
    (T : TypeDecl) (plan : List (String × String))
    (h1 : (tab.map TypeDecl.name).Nodup) (h2 : T ∈ tab)
    (_h3 : T.name ∈ reachableNames routes tab)
    (h4 : emitTypePlan tab = .ok plan) :
    (plan.map Prod.fst).count T.name = 1 ∧
    List.Sorted (fun a b : String => strLeB a b = true) (plan.map Prod.fst) := by
  have hfst : plan.map Prod.fst = (sortTypes tab).map TypeDecl.name :=
    mapE_emitOne_fst (sortTypes tab) plan h4
  rw [hfst]
  exact ⟨sortTypes_names_count tab T h1 h2, sortTypes_names_sorted tab⟩

/-- Witness for C7: Bar, reachable from a route response, is rendered
exactly once and the plan is name-sorted. -/
theorem C7_referential_completeness_witness :
    (planW7.map Prod.fst).count "Bar" = 1 ∧
    List.Sorted (fun a b : String => strLeB a b = true) (planW7.map Prod.fst) :=
  C7_referential_completeness tabW7 routesW7
    (TypeDecl.mk "Bar" TypeKind.product [Field.mk "foo" (TypeRef.named "Foo") false])
    planW7 (by decide) (by decide) (by decide) rfl

/-- C8: the entry point takes the ordered input path list, an output
path and a debug flag, and reports every failure through the returned
Result value — it returns exactly the pipeline's error when rendering
fails, and ok when rendering succeeds. -/
theorem C8_process_result_contract (fs : FileSystem) (inputs : List String)
    (out : String) (dbg : Bool) (w : World) :
    ((process fs inputs out dbg w).1 = .ok () ∧ ∃ t, renderOutput fs inputs = .ok t) ∨
    (∃ e, (process fs inputs out dbg w).1 = .error e ∧
      renderOutput fs inputs = .error e) := by
  cases h : renderOutput fs inputs with
  | error e => exact Or.inr ⟨e, by simp [process, h], rfl⟩
  | ok t =>
    refine Or.inl ⟨?_, ⟨t, rfl⟩⟩
    cases dbg <;> simp [process, h]

end QSync

/-- C9: a Configure invocation selecting query-sync with no input flag
and no output flag invokes qsync process with the single input path
backend/services, the output path frontend/src/api.generated.ts, and the
debug flag passed through unchanged (main.rs lines 502-507). -/
theorem C9_default_qsync_args (dbg : Bool) :
    Cli.qsyncInvocationArgs none none dbg =
      (["backend/services"], "frontend/src/api.generated.ts", dbg) := rfl

/-- C10: UserSession::read_all filters by the given user, orders by
created_at, limits to exactly page_size rows (never clamped), and uses
the offset page * min(page_size, MAX_PAGE_SIZE) — only the per-page
stride is clamped. -/
theorem C10_read_all_pagination (maxPageSize : Int) (p : Auth.PaginationParams)
    (u : Int) :
    (Auth.read_all_query maxPageSize p u).filter_user_id = u ∧
    (Auth.read_all_query maxPageSize p u).order_column = "created_at" ∧
    (Auth.read_all_query maxPageSize p u).limit = p.page_size ∧
    (Auth.read_all_query maxPageSize p u).offset =
      p.page * min p.page_size maxPageSize :=
  ⟨rfl, rfl, rfl, rfl⟩

end CreateRustApp
